import Mathlib

/-!
# Verification of the hand-driven particle system

Shallow embedding of the core control logic of the repository
(`src/particleSystem.js`, `src/database.js`) and proofs of the
specification's testable properties.

Conventions used throughout:

* JavaScript floating-point scalars are modelled as exact rationals `ℚ`
  where the code only performs field operations and comparisons, and as
  real numbers `ℝ` where the code calls transcendental functions
  (`Math.sin`, `Math.sqrt`, ...).
* `Math.random()` is modelled as an explicit oracle (a stream of rational
  draws) passed to the function that consumes it.
* A JavaScript `NaN` produced by normalising a zero-length vector is
  modelled by the exact-arithmetic degeneracy that causes it (the vector
  being zero); the code's `isNaN` guards become zero tests.
-/

/-! ## Blend parameter (`uState`)

`ParticleSystem.update` (src/particleSystem.js lines 2136-2142):

```js
const targetState = this.isClosed ? 1.0 : 0.0;
const lerpSpeed = 0.5;
this.material.uniforms.uState.value +=
  (targetState - this.material.uniforms.uState.value) * lerpSpeed * dt;
```

The whole block runs only under `if (handData)`; with no hand present
`uState` is untouched.
-/

/-- One tick of the `uState` update with a hand present.
`closed` is `handData.isClosed`, `dt` the frame delta in seconds. -/
def blendStep (closed : Bool) (dt u : ℚ) : ℚ :=
  u + ((if closed then 1 else 0) - u) * (1/2) * dt

/-- One tick of `update` as far as `uState` is concerned: `none` models a
tick with no hand present (the whole stabilisation block is skipped). -/
def blendTick (h : Option Bool) (dt u : ℚ) : ℚ :=
  match h with
  | none => u
  | some c => blendStep c dt u

/-- Run a whole sequence of ticks; each element is (hand data, dt). -/
def blendRun : List (Option Bool × ℚ) → ℚ → ℚ
  | [], u => u
  | t :: ts, u => blendRun ts (blendTick t.1 t.2 u)

/-- `uState` after `n` ticks at `dt = 1/60 s`, hand present and constantly
`Closed`, starting from `uState = 0`. -/
def blendClosedAfter (n : ℕ) : ℚ :=
  blendRun (List.replicate n (some true, 1/60)) 0

theorem blendRun_replicate_closed (n : ℕ) (u : ℚ) :
    blendRun (List.replicate n (some true, 1/60)) u =
      1 - (119/120) ^ n * (1 - u) := by
  induction n generalizing u with
  | zero => simp [blendRun]
  | succ n ih =>
      rw [List.replicate_succ]
      show blendRun (List.replicate n (some true, 1/60))
        (blendTick (some true) (1/60) u) = _
      rw [ih]
      simp [blendTick, blendStep]
      ring

theorem blendClosedAfter_eq (n : ℕ) :
    blendClosedAfter n = 1 - (119/120) ^ n := by
  rw [blendClosedAfter, blendRun_replicate_closed]; ring

/-- C1 (counterexample). Exactly 5 seconds of simulated `Closed` ticks at
`dt = 1/60 s` (300 ticks) leave the blend parameter at
`1 - (119/120)^300 ≈ 0.919`, which does not exceed 0.99: the claimed
5-second bound is too small. -/
theorem blendClosedAfter_300_not_gt : ¬ (99/100 : ℚ) < blendClosedAfter 300 := by
  rw [blendClosedAfter_eq]
  have h : (1/100 : ℚ) < (119/120) ^ 300 := by
    rw [div_pow, lt_div_iff₀ (by positivity), div_mul_eq_mul_div,
      div_lt_iff₀ (by norm_num)]
    norm_num
  linarith

/-- C1 (amended). Starting from `uState = 0` with a hand present every
tick and the gesture constantly `Closed`, after at least 10 seconds of
simulated ticks at `dt = 1/60 s` (`n ≥ 600`) the blend parameter exceeds
0.99. -/
theorem blendClosedAfter_gt_of_600 (n : ℕ) (hn : 600 ≤ n) :
    (99/100 : ℚ) < blendClosedAfter n := by
  rw [blendClosedAfter_eq]
  have hmono : ((119/120 : ℚ)) ^ n ≤ (119/120) ^ 600 :=
    pow_le_pow_of_le_one (by norm_num) (by norm_num) hn
  have h600 : ((119/120 : ℚ)) ^ 600 < 1/100 := by
    rw [div_pow, div_lt_iff₀ (by positivity), div_mul_eq_mul_div,
      lt_div_iff₀ (by norm_num)]
    norm_num
  linarith

/-- Witness for C1's amended theorem at the concrete tick count 600. -/
theorem blendClosedAfter_gt_of_600_witness :
    600 ≤ 600 ∧ (99/100 : ℚ) < blendClosedAfter 600 :=
  ⟨le_refl 600, blendClosedAfter_gt_of_600 600 (le_refl 600)⟩

/-- C2 (counterexample). The claim quantifies over all `dt ≥ 0`; a single
`Closed` tick with `dt = 4` starting from `uState = 0` produces
`uState = 2`, leaving `[0,1]`. -/
theorem blendStep_escapes_unit_interval :
    blendStep true 4 0 = 2 ∧ ¬ blendStep true 4 0 ≤ 1 := by
  constructor
  · norm_num [blendStep]
  · norm_num [blendStep]

theorem blendStep_mem_unit_interval {dt u : ℚ} (c : Bool)
    (hdt0 : 0 ≤ dt) (hdt2 : dt ≤ 2) (h0 : 0 ≤ u) (h1 : u ≤ 1) :
    0 ≤ blendStep c dt u ∧ blendStep c dt u ≤ 1 := by
  cases c <;> simp [blendStep] <;> constructor <;> nlinarith

/-- C2 (amended). For every sequence of `update(dt, handData)` calls with
`0 ≤ dt ≤ 2` per tick (hand present or not, any gesture each tick), the
blend parameter stays in `[0,1]`, and the change in any single tick is at
most `0.5 × dt` in absolute value; ticks without a hand leave it
unchanged. The bound `dt ≤ 2` is necessary by the counterexample. -/
theorem blendRun_invariant (seq : List (Option Bool × ℚ))
    (hdt : ∀ p ∈ seq, 0 ≤ p.2 ∧ p.2 ≤ 2) (u : ℚ) (h0 : 0 ≤ u) (h1 : u ≤ 1) :
    (0 ≤ blendRun seq u ∧ blendRun seq u ≤ 1) ∧
      (∀ h d v, 0 ≤ d → 0 ≤ v → v ≤ 1 →
        |blendTick h d v - v| ≤ (1/2) * d) := by
  constructor
  · induction seq generalizing u with
    | nil => exact ⟨h0, h1⟩
    | cons p ps ih =>
        have hp := hdt p (List.mem_cons_self p ps)
        have hps : ∀ q ∈ ps, 0 ≤ q.2 ∧ q.2 ≤ 2 := fun q hq =>
          hdt q (List.mem_cons_of_mem p hq)
        show 0 ≤ blendRun ps (blendTick p.1 p.2 u) ∧ _
        rcases p with ⟨h, d⟩
        cases h with
        | none => exact ih hps u h0 h1
        | some c =>
            have hstep := blendStep_mem_unit_interval c hp.1 hp.2 h0 h1
            exact ih hps _ hstep.1 hstep.2
  · intro h d v hd0 hv0 hv1
    cases h with
    | none =>
        simp only [blendTick, sub_self, abs_zero]
        positivity
    | some c =>
        have hkey : blendTick (some c) d v - v = ((if c then 1 else 0) - v) * (1/2) * d := by
          simp only [blendTick, blendStep]; ring
        rw [hkey, abs_mul, abs_of_nonneg hd0, abs_mul]
        have hb : |((if c then 1 else 0 : ℚ) - v)| ≤ 1 := by
          rw [abs_le]; cases c <;> simp <;> constructor <;> linarith
        have habs2 : |(1/2 : ℚ)| = 1/2 := by norm_num
        rw [habs2]
        have : |((if c then 1 else 0 : ℚ) - v)| * (1/2) ≤ 1 * (1/2) :=
          mul_le_mul_of_nonneg_right hb (by norm_num)
        nlinarith [abs_nonneg ((if c then 1 else 0 : ℚ) - v)]

/-- Witness for C2's amended theorem on a concrete two-tick sequence. -/
theorem blendRun_invariant_witness :
    (0 ≤ blendRun [(some true, 1/60), (none, 1/60)] 0 ∧
      blendRun [(some true, 1/60), (none, 1/60)] 0 ≤ 1) ∧
      (∀ h d v, 0 ≤ d → 0 ≤ v → v ≤ 1 →
        |blendTick h d v - v| ≤ (1/2) * d) :=
  blendRun_invariant [(some true, 1/60), (none, 1/60)]
    (by intro p hp; simp at hp; rcases hp with h | h <;> rw [h] <;> norm_num)
    0 (le_refl 0) (by norm_num)

/-! ## Depth-scale remap and smoothing (C9)

`ParticleSystem.update` (src/particleSystem.js lines 2115-2134), fed by
`HandTracker.getState` (src/database.js line 289).
-/

/-- The `scale` field of `HandTracker.getState`:
`scale: this.handScale || 0.2` — a zero (or unset, modelled as zero)
measured wrist-to-knuckle distance is replaced by the `0.2` default. -/
def getStateScale (handScale : ℚ) : ℚ :=
  if handScale = 0 then 1/5 else handScale

/-- The linear remap of the raw depth scale:
`s = (scale - 0.1) / (0.3 - 0.1); s = max(0, min(1, s)); 1.0 + s * 1.5`. -/
def remapScale (raw : ℚ) : ℚ :=
  1 + (max 0 (min 1 ((raw - 1/10) / (3/10 - 1/10)))) * (3/2)

/-- One scale-smoothing tick. The surrounding JavaScript truthiness guard
`if (handData.scale)` skips the block when the scale is exactly zero.
`closed` selects `posLerpFactor` (line 2071): 0.03 closed, 0.15 open. -/
def scaleStep (closed : Bool) (raw prev : ℚ) : ℚ :=
  if raw = 0 then prev
  else prev + (remapScale raw - prev) * (if closed then 3/100 else 15/100)

theorem getStateScale_ne_zero (hs : ℚ) : getStateScale hs ≠ 0 := by
  unfold getStateScale
  split
  · norm_num
  · assumption

/-- C9. On a tick with a hand present, the raw depth scale delivered by the
tracker (never zero, so the truthiness guard always passes) is linearly
remapped from `[0.1, 0.3]` to `[1.0, 2.5]` with clamping at both ends, and
the smoothed scale moves toward the remapped target by the
gesture-dependent exponential factor (0.03 while Closed, 0.15 while
Open). -/
theorem scaleStep_spec (closed : Bool) (hs prev : ℚ) :
    (getStateScale hs ≤ 1/10 → remapScale (getStateScale hs) = 1) ∧
    (3/10 ≤ getStateScale hs → remapScale (getStateScale hs) = 5/2) ∧
    (1/10 ≤ getStateScale hs → getStateScale hs ≤ 3/10 →
      remapScale (getStateScale hs) =
        1 + (getStateScale hs - 1/10) * (15/2)) ∧
    (1 ≤ remapScale (getStateScale hs) ∧ remapScale (getStateScale hs) ≤ 5/2) ∧
    scaleStep closed (getStateScale hs) prev =
      prev + (remapScale (getStateScale hs) - prev) *
        (if closed then 3/100 else 15/100) := by
  set raw := getStateScale hs with hraw
  have hlin : (raw - 1/10) / (3/10 - 1/10) = 5 * (raw - 1/10) := by ring
  refine ⟨?_, ?_, ?_, ⟨?_, ?_⟩, ?_⟩
  · intro h
    unfold remapScale
    rw [hlin, max_eq_left (le_trans (min_le_right 1 _) (by linarith))]
    ring
  · intro h
    unfold remapScale
    rw [hlin, min_eq_left (by linarith), max_eq_right (by norm_num : (0:ℚ) ≤ 1)]
    ring
  · intro h1 h2
    unfold remapScale
    rw [hlin, min_eq_right (by linarith), max_eq_right (by linarith)]
    ring
  · unfold remapScale
    have : (0 : ℚ) ≤ max 0 (min 1 ((raw - 1/10) / (3/10 - 1/10))) := le_max_left _ _
    nlinarith
  · unfold remapScale
    have h1 : min 1 ((raw - 1/10) / (3/10 - 1/10)) ≤ 1 := min_le_left _ _
    have h0 : (0 : ℚ) ≤ 1 := by norm_num
    have : max 0 (min 1 ((raw - 1/10) / (3/10 - 1/10))) ≤ 1 := max_le h0 h1
    nlinarith [le_max_left (0:ℚ) (min 1 ((raw - 1/10) / (3/10 - 1/10)))]
  · unfold scaleStep
    rw [if_neg (getStateScale_ne_zero hs)]

/-- Witness for C9 at a concrete raw scale 0.2, Closed, previous smoothed
scale 1. -/
theorem scaleStep_spec_witness :
    (1/10 : ℚ) ≤ getStateScale (1/5) ∧ getStateScale (1/5) ≤ 3/10 ∧
      remapScale (getStateScale (1/5)) =
        1 + (getStateScale (1/5) - 1/10) * (15/2) ∧
      scaleStep true (getStateScale (1/5)) 1 =
        1 + (remapScale (getStateScale (1/5)) - 1) * (3/100) := by
  have h := scaleStep_spec true (1/5) 1
  refine ⟨by norm_num [getStateScale], by norm_num [getStateScale], ?_, ?_⟩
  · exact h.2.2.1 (by norm_num [getStateScale]) (by norm_num [getStateScale])
  · have h5 := h.2.2.2.2
    simpa using h5

/-! ## Focus/popup animator (C3, C4)

`ParticleSystem.updatePopup` (src/particleSystem.js lines 2380-2412),
`ParticleSystem.onClick` (lines 1541-1603), popup construction
(lines 2319-2331). Timers and flags are exact; the mesh position and the
`startPos` snapshot are real vectors.
-/

/-- `THREE.Vector3.lerpVectors(a, b, t) = a + (b - a) * t`, componentwise. -/
def lerpV3 (a b : ℝ × ℝ × ℝ) (t : ℝ) : ℝ × ℝ × ℝ :=
  (a.1 + (b.1 - a.1) * t, a.2.1 + (b.2.1 - a.2.1) * t,
    a.2.2 + (b.2.2 - a.2.2) * t)

/-- The popup state (`this.popupState`) together with the popup mesh flags
and the `uClickedID` uniform it drives. `targetPos` is fixed to
`(0, 0, 42)` at construction. -/
structure PopupSys where
  active : Bool
  timer : ℚ
  startPos : ℝ × ℝ × ℝ
  targetPos : ℝ × ℝ × ℝ
  id : ℤ
  meshVisible : Bool
  meshPos : ℝ × ℝ × ℝ
  meshScale : ℝ
  clickedID : ℤ

/-- The animation factor of `updatePopup` as a function of the elapsed
timer `t` (after `timer += dt`): sinusoidal ease-in on `[0, 0.3)`, held at
1 on `[0.3, 1.2)`, linear fall on `[1.2, 1.5)`. For `t ≥ 1.5` the code
deactivates before any factor is used; 0 is returned there as a junk
value. -/
noncomputable def popupFactor (t : ℚ) : ℝ :=
  if t < 3/10 then Real.sin (((t : ℝ) / (3/10)) * (Real.pi / 2))
  else if t < 6/5 then 1
  else if t < 3/2 then 1 - ((t : ℝ) - 6/5) / (3/10)
  else 0

/-- `ParticleSystem.updatePopup(dt)`. Inactive state returns immediately;
otherwise the timer advances, and either the popup mesh is animated
(`t < 1.5`) or the animator terminates: `active = false`, the mesh is
hidden and the `uClickedID` exclusion is cleared to −1. The billboard
rotation copy (line 2411) has no modelled effect. -/
noncomputable def updatePopup (dt : ℚ) (s : PopupSys) : PopupSys :=
  if s.active = false then s
  else
    let t := s.timer + dt
    if t < 3/2 then
      { s with timer := t,
               meshPos := lerpV3 s.startPos s.targetPos (popupFactor t),
               meshScale := 1/5 + (4/5) * popupFactor t }
    else
      { s with timer := t, active := false, meshVisible := false,
               clickedID := -1 }

/-- C3. After focus activation, the animation factor at elapsed timer `t`
is `sin((t/0.3)·(π/2))` for `t < 0.3`, exactly 1 for `0.3 ≤ t < 1.2`, and
falls linearly as `1 - (t - 1.2)/0.3` for `1.2 ≤ t < 1.5`; at `t ≥ 1.5`
the animator deactivates, hides the popup mesh and clears the
hidden-particle exclusion (`uClickedID := -1`). -/
theorem updatePopup_phases (s : PopupSys) (dt : ℚ) (hact : s.active = true) :
    (s.timer + dt < 3/10 →
      popupFactor (s.timer + dt) =
        Real.sin ((((s.timer + dt : ℚ) : ℝ) / (3/10)) * (Real.pi / 2)) ∧
      (updatePopup dt s).active = true) ∧
    (3/10 ≤ s.timer + dt → s.timer + dt < 6/5 →
      popupFactor (s.timer + dt) = 1) ∧
    (6/5 ≤ s.timer + dt → s.timer + dt < 3/2 →
      popupFactor (s.timer + dt) =
        1 - (((s.timer + dt : ℚ) : ℝ) - 6/5) / (3/10)) ∧
    (3/2 ≤ s.timer + dt →
      (updatePopup dt s).active = false ∧
      (updatePopup dt s).meshVisible = false ∧
      (updatePopup dt s).clickedID = -1) := by
  refine ⟨?_, ?_, ?_, ?_⟩
  · intro h
    constructor
    · rw [popupFactor, if_pos h]
    · rw [updatePopup, if_neg (by rw [hact]; simp)]
      have h32 : s.timer + dt < 3/2 := lt_trans h (by norm_num)
      simp only [if_pos h32]
      exact hact
  · intro h1 h2
    rw [popupFactor, if_neg (not_lt.mpr h1), if_pos h2]
  · intro h1 h2
    rw [popupFactor, if_neg (not_lt.mpr (le_trans (by norm_num) h1)),
      if_neg (not_lt.mpr h1), if_pos h2]
  · intro h
    rw [updatePopup, if_neg (by rw [hact]; simp)]
    simp [if_neg (not_lt.mpr h)]

/-- A concrete active popup used to witness C3 (activated on a particle at
position (1,2,3)). -/
noncomputable def popC3 : PopupSys :=
  { active := true, timer := 7/5, startPos := (1, 2, 3),
    targetPos := (0, 0, 42), id := 5, meshVisible := true,
    meshPos := (1, 2, 3), meshScale := 1, clickedID := 5 }

/-- Witness for C3: one further tick of 0.1 s takes the timer from 1.4 s
to 1.5 s and terminates the popup. -/
theorem updatePopup_phases_witness :
    popC3.active = true ∧ (3/2 : ℚ) ≤ popC3.timer + 1/10 ∧
      (updatePopup (1/10) popC3).active = false ∧
      (updatePopup (1/10) popC3).meshVisible = false ∧
      (updatePopup (1/10) popC3).clickedID = -1 := by
  have h := (updatePopup_phases popC3 (1/10) rfl).2.2.2 (by norm_num [popC3])
  exact ⟨rfl, by norm_num [popC3], h.1, h.2.1, h.2.2⟩

/-- The slice of `ParticleSystem` state read and written by `onClick`:
the current gesture, the `aIsPhoto` buffer and the popup subsystem. -/
structure ClickState where
  isClosed : Bool
  isPhotos : List Bool
  sys : PopupSys

/-- The bounded random search of `onClick` (lines 1570-1578): up to
`fuel` draws from the oracle `draws` starting at draw index `i`, accepting
the first index whose `aIsPhoto` entry is set. An out-of-range draw reads
as unflagged (in JavaScript, `undefined > 0.5` is false). -/
def findPhotoGo (isPhotos : List Bool) (draws : ℕ → ℕ) : ℕ → ℕ → Option ℕ
  | _, 0 => none
  | i, fuel + 1 =>
      if isPhotos.getD (draws i) false then some (draws i)
      else findPhotoGo isPhotos draws (i + 1) fuel

/-- The search of `onClick`: 100 draws, from the first. -/
def findPhoto (isPhotos : List Bool) (draws : ℕ → ℕ) : Option ℕ :=
  findPhotoGo isPhotos draws 0 100

theorem findPhotoGo_flagged (isPhotos : List Bool) (draws : ℕ → ℕ) :
    ∀ i fuel r, findPhotoGo isPhotos draws i fuel = some r →
      isPhotos.getD r false = true := by
  intro i fuel
  induction fuel generalizing i with
  | zero => intro r h; exact absurd h (by simp [findPhotoGo])
  | succ n ih =>
      intro r h
      rw [findPhotoGo] at h
      by_cases hf : isPhotos.getD (draws i) false
      · rw [if_pos hf] at h
        cases h
        exact hf
      · rw [if_neg hf] at h
        exact ih (i + 1) r h

/-- `ParticleSystem.onClick`. A click while the gesture is Closed is
ignored. Otherwise the bounded random search runs; on success the found
particle is hidden (`uClickedID := r`) and the popup is activated over it;
on failure nothing changes. `posOf` abstracts `getParticlePos` (only the
snapshot stored in `startPos`; its formula does not affect activation).
The random photo-slot UV offset (lines 1559-1566) only selects the popup
texture cell and is not modelled. -/
noncomputable def onClick (draws : ℕ → ℕ) (posOf : ℕ → ℝ × ℝ × ℝ)
    (st : ClickState) : ClickState :=
  if st.isClosed then st
  else
    match findPhoto st.isPhotos draws with
    | none => st
    | some r =>
        { st with sys :=
          { st.sys with
            clickedID := (r : ℤ),
            active := true,
            timer := 0,
            startPos := posOf r,
            id := (r : ℤ),
            meshVisible := true,
            meshPos := posOf r,
            meshScale := 1/10 } }

/-- An inactive popup subsystem (the state after construction). -/
noncomputable def popIdle : PopupSys :=
  { active := false, timer := 0, startPos := (0, 0, 0),
    targetPos := (0, 0, 42), id := -1, meshVisible := false,
    meshPos := (0, 0, 0), meshScale := 1, clickedID := -1 }

/-- A deterministic position oracle for witnesses. -/
noncomputable def posOfZero : ℕ → ℝ × ℝ × ℝ := fun _ => (0, 0, 0)

/-- An open-gesture state with one flagged particle (index 0) out of
two. -/
noncomputable def clickOpenSt : ClickState :=
  { isClosed := false, isPhotos := [true, false], sys := popIdle }

/-- A draw oracle that always draws the unflagged index 1. -/
def drawsMiss : ℕ → ℕ := fun _ => 1

/-- C4 (counterexample). With the gesture Open and a flagged particle
present (index 0 of `clickOpenSt`), a draw oracle that never hits a
flagged index makes all 100 retries fail, so `onClick` changes nothing
and no particle is hidden — refuting the claim that activation always
succeeds when flagged particles exist. -/
theorem onClick_counterexample :
    clickOpenSt.isClosed = false ∧
      clickOpenSt.isPhotos.getD 0 false = true ∧
      onClick drawsMiss posOfZero clickOpenSt = clickOpenSt ∧
      (onClick drawsMiss posOfZero clickOpenSt).sys.active = false := by
  refine ⟨rfl, rfl, ?_, ?_⟩ <;> rfl

/-- C4 (amended). A click while the gesture is Closed is rejected with no
state change. While Open: if one of the 100 uniform draws hits a particle
with `isPhotoFlag` set, the first such particle `r` (which is flagged)
becomes the single hidden particle (`uClickedID = r`) and the Focus
Animator becomes active with timer 0 on that particle, the photo buffer
unchanged; if no draw hits a flagged particle, nothing changes. -/
theorem onClick_spec (draws : ℕ → ℕ) (posOf : ℕ → ℝ × ℝ × ℝ)
    (st : ClickState) :
    (st.isClosed = true → onClick draws posOf st = st) ∧
    (st.isClosed = false → findPhoto st.isPhotos draws = none →
      onClick draws posOf st = st) ∧
    (∀ r, st.isClosed = false → findPhoto st.isPhotos draws = some r →
      st.isPhotos.getD r false = true ∧
      (onClick draws posOf st).sys.clickedID = (r : ℤ) ∧
      (onClick draws posOf st).sys.active = true ∧
      (onClick draws posOf st).sys.timer = 0 ∧
      (onClick draws posOf st).sys.id = (r : ℤ) ∧
      (onClick draws posOf st).sys.meshVisible = true ∧
      (onClick draws posOf st).isPhotos = st.isPhotos ∧
      (onClick draws posOf st).isClosed = false) := by
  refine ⟨?_, ?_, ?_⟩
  · intro h
    rw [onClick, if_pos h]
  · intro h hnone
    rw [onClick, if_neg (by rw [h]; simp), hnone]
  · intro r h hsome
    have hflag := findPhotoGo_flagged st.isPhotos draws 0 100 r hsome
    refine ⟨hflag, ?_⟩
    rw [onClick, if_neg (by rw [h]; simp), hsome]
    exact ⟨rfl, rfl, rfl, rfl, rfl, rfl, h⟩

/-- A Closed-gesture state used to witness the rejection branch of C4. -/
noncomputable def clickClosedSt : ClickState :=
  { isClosed := true, isPhotos := [true, false], sys := popIdle }

/-- Witness for C4's amended theorem: rejection while Closed, and a
successful activation while Open with a draw oracle that hits the flagged
index 0 immediately. -/
theorem onClick_spec_witness :
    (clickClosedSt.isClosed = true ∧
      onClick drawsMiss posOfZero clickClosedSt = clickClosedSt) ∧
    (findPhoto clickOpenSt.isPhotos (fun _ => 0) = some 0 ∧
      (onClick (fun _ => 0) posOfZero clickOpenSt).sys.clickedID = 0 ∧
      (onClick (fun _ => 0) posOfZero clickOpenSt).sys.active = true) := by
  constructor
  · exact ⟨rfl, (onClick_spec drawsMiss posOfZero clickClosedSt).1 rfl⟩
  · have h := (onClick_spec (fun _ => 0) posOfZero clickOpenSt).2.2 0 rfl rfl
    exact ⟨rfl, h.2.1, h.2.2.1⟩

/-! ## Shape generation (C5, C6, C10)

`ParticleSystem.generateShape` (src/particleSystem.js lines 1791-2049).
The heart branch (lines 1828-1847), whose rejection-sampling loop the
claims reason about, is embedded exactly; the planet/star/tree branch
bodies (lines 1864-2044) are trigonometric data-generation routines that
the specification places out of scope ("data-generation routines, not
core control logic") and are abstracted as per-particle providers. Every
branch of the source writes exactly one colour triple and one position
triple per loop iteration, which the per-particle provider encoding
mirrors. The `'flower'` branch (lines 1848-1863) is dead code: `'flower'`
is not in `allowedShapes`, so that comparison can never be reached. -/

/-- A triple of rationals (a 3D point or an RGB colour). -/
abbrev Q3 := ℚ × ℚ × ℚ

/-- Acceptance test of the heart rejection loop (lines 1840-1842):
`a = x·x + 9/4·y·y + z·z − 1`; accept iff
`a·a·a − x·x·z·z·z − 9/80·y·y·z·z·z < 0`. -/
def heartAccept (p : Q3) : Bool :=
  let x := p.1
  let y := p.2.1
  let z := p.2.2
  let a := x * x + 9/4 * (y * y) + z * z - 1
  decide (a * a * a - x * x * (z * z * z) - 9/80 * (y * y) * (z * z * z) < 0)

/-- The candidate point of attempt `n`:
`p.set((random()-0.5)*3, (random()-0.5)*3, (random()-0.5)*3)`, where `s n`
are that attempt's three `Math.random()` draws. -/
def heartCandidate (s : ℕ → Q3) (n : ℕ) : Q3 :=
  (((s n).1 - 1/2) * 3, ((s n).2.1 - 1/2) * 3, ((s n).2.2 - 1/2) * 3)

/-- The heart `while(true)` loop terminates on draw stream `s` iff some
attempt is accepted. -/
def heartTerminates (s : ℕ → Q3) : Prop :=
  ∃ n, heartAccept (heartCandidate s n) = true

/-- The value produced by the unbounded heart rejection loop: its first
accepted candidate. It is defined only on streams where the loop
terminates. -/
def heartPick (s : ℕ → Q3) (h : heartTerminates s) : Q3 :=
  heartCandidate s (Nat.find h)

/-- The per-particle buffers touched or preserved by `generateShape`,
plus the particle count (fixed at construction, line 1126) and the
current tint `this.color`. -/
structure Buffers where
  particleCount : ℕ
  currentShape : String
  color : Q3
  targets : List Q3
  colors : List Q3
  randoms : List Q3
  isPhotos : List Bool

/-- The shape ids accepted by `generateShape` (line 1792). -/
def allowedShapes : List String := ["heart", "planet", "star", "tree"]

/-- The fallback of lines 1793-1795: an unknown id becomes `'heart'`. -/
def normShape (ty : String) : String :=
  if ty ∈ allowedShapes then ty else "heart"

/-- Abstract per-particle providers for the out-of-scope planet, star and
tree placement formulas: particle index to (targetPosition, colour). -/
structure ShapeProviders where
  planet : ℕ → Q3 × Q3
  star : ℕ → Q3 × Q3
  tree : ℕ → Q3 × Q3

/-- Every particle's heart rejection loop terminates on the stream
family `rnd` (particle index → attempt → draws). -/
def goodHeartStream (rnd : ℕ → ℕ → Q3) : Prop :=
  ∀ i, heartTerminates (rnd i)

/-- `ParticleSystem.generateShape(type)`. Only `aTargetPos` and `aColor`
are written (the source writes them in place, one triple per particle per
loop pass); `aRandom` and `aIsPhoto` are never touched. The heart branch
scales each accepted sample by 10 (lines 1844-1846) and colours every
particle with the current tint (line 1831). -/
def generateShape (P : ShapeProviders) (rnd : ℕ → ℕ → Q3)
    (hG : goodHeartStream rnd) (st : Buffers) (ty : String) : Buffers :=
  if normShape ty = "heart" then
    { st with
        currentShape := normShape ty
        colors := (List.range st.particleCount).map (fun _ => st.color)
        targets := (List.range st.particleCount).map (fun i =>
          ((heartPick (rnd i) (hG i)).1 * 10,
            (heartPick (rnd i) (hG i)).2.1 * 10,
            (heartPick (rnd i) (hG i)).2.2 * 10)) }
  else if normShape ty = "planet" then
    { st with
        currentShape := normShape ty
        colors := (List.range st.particleCount).map (fun i => (P.planet i).2)
        targets := (List.range st.particleCount).map (fun i => (P.planet i).1) }
  else if normShape ty = "star" then
    { st with
        currentShape := normShape ty
        colors := (List.range st.particleCount).map (fun i => (P.star i).2)
        targets := (List.range st.particleCount).map (fun i => (P.star i).1) }
  else if normShape ty = "tree" then
    { st with
        currentShape := normShape ty
        colors := (List.range st.particleCount).map (fun i => (P.tree i).2)
        targets := (List.range st.particleCount).map (fun i => (P.tree i).1) }
  else st

/-- Flatten a list of triples into the scalar layout of the underlying
`Float32Array` buffers. -/
def flat3 : List Q3 → List ℚ
  | [] => []
  | p :: ps => p.1 :: p.2.1 :: p.2.2 :: flat3 ps

theorem flat3_length (l : List Q3) : (flat3 l).length = 3 * l.length := by
  induction l with
  | nil => rfl
  | cons p ps ih => simp [flat3, ih]; omega

theorem normShape_mem (ty : String) : normShape ty ∈ allowedShapes := by
  unfold normShape
  split
  · assumption
  · decide

/-- C5. Shape reassignment, for any shape id, preserves the particle
count and leaves the `aRandom` and `aIsPhoto` buffers untouched; only the
target-position and colour buffers are rewritten, and (in the flat scalar
layout) their lengths are exactly `particleCount × 3`. -/
theorem generateShape_preserves (P : ShapeProviders) (rnd : ℕ → ℕ → Q3)
    (hG : goodHeartStream rnd) (st : Buffers) (ty : String) :
    (generateShape P rnd hG st ty).particleCount = st.particleCount ∧
    (generateShape P rnd hG st ty).randoms = st.randoms ∧
    (generateShape P rnd hG st ty).isPhotos = st.isPhotos ∧
    (generateShape P rnd hG st ty).targets.length = st.particleCount ∧
    (generateShape P rnd hG st ty).colors.length = st.particleCount ∧
    (flat3 (generateShape P rnd hG st ty).targets).length =
      3 * st.particleCount ∧
    (flat3 (generateShape P rnd hG st ty).colors).length =
      3 * st.particleCount := by
  have hdisj : normShape ty = "heart" ∨ normShape ty = "planet" ∨
      normShape ty = "star" ∨ normShape ty = "tree" := by
    simpa [allowedShapes] using normShape_mem ty
  rcases hdisj with h | h | h | h
  · rw [generateShape, h, if_pos rfl]
    exact ⟨rfl, rfl, rfl, by simp, by simp, by simp [flat3_length],
      by simp [flat3_length]⟩
  · rw [generateShape, h, if_neg (by decide), if_pos rfl]
    exact ⟨rfl, rfl, rfl, by simp, by simp, by simp [flat3_length],
      by simp [flat3_length]⟩
  · rw [generateShape, h, if_neg (by decide), if_neg (by decide), if_pos rfl]
    exact ⟨rfl, rfl, rfl, by simp, by simp, by simp [flat3_length],
      by simp [flat3_length]⟩
  · rw [generateShape, h, if_neg (by decide), if_neg (by decide),
      if_neg (by decide), if_pos rfl]
    exact ⟨rfl, rfl, rfl, by simp, by simp, by simp [flat3_length],
      by simp [flat3_length]⟩

/-- Trivial providers for witnesses. -/
def provZero : ShapeProviders :=
  { planet := fun _ => ((0, 0, 0), (0, 0, 0)),
    star := fun _ => ((0, 0, 0), (0, 0, 0)),
    tree := fun _ => ((0, 0, 0), (0, 0, 0)) }

/-- The draw stream whose every `Math.random()` call returns 0.5; every
candidate is the origin, which the heart inequality accepts. -/
def rndHalf : ℕ → ℕ → Q3 := fun _ _ => (1/2, 1/2, 1/2)

theorem rndHalf_good : goodHeartStream rndHalf := by
  intro i
  refine ⟨0, ?_⟩
  have hc : heartCandidate (rndHalf i) 0 = (0, 0, 0) := by
    unfold heartCandidate rndHalf
    norm_num
  rw [hc]
  norm_num [heartAccept]

/-- A concrete two-particle buffer state for witnesses. -/
def bufTwo : Buffers :=
  { particleCount := 2, currentShape := "star", color := (1, 0, 0),
    targets := [(5, 5, 5), (6, 6, 6)], colors := [(1, 1, 1), (2, 2, 2)],
    randoms := [(1/3, 2/3, 1/4), (0, 0, 0)], isPhotos := [true, false] }

/-- Witness for C5 at a concrete state and shape id. -/
theorem generateShape_preserves_witness :
    (generateShape provZero rndHalf rndHalf_good bufTwo "tree").particleCount
        = bufTwo.particleCount ∧
    (generateShape provZero rndHalf rndHalf_good bufTwo "tree").randoms
        = bufTwo.randoms ∧
    (generateShape provZero rndHalf rndHalf_good bufTwo "tree").isPhotos
        = bufTwo.isPhotos ∧
    (generateShape provZero rndHalf rndHalf_good bufTwo "tree").targets.length
        = bufTwo.particleCount ∧
    (generateShape provZero rndHalf rndHalf_good bufTwo "tree").colors.length
        = bufTwo.particleCount ∧
    (flat3 (generateShape provZero rndHalf rndHalf_good bufTwo "tree").targets).length
        = 3 * bufTwo.particleCount ∧
    (flat3 (generateShape provZero rndHalf rndHalf_good bufTwo "tree").colors).length
        = 3 * bufTwo.particleCount :=
  generateShape_preserves provZero rndHalf rndHalf_good bufTwo "tree"

/-- C6. Calling `generateShape` with a shape id outside the known set
behaves exactly as a call with the default id `'heart'` (same resulting
buffers from the same draw stream), and records the fallback in
`currentShape`. -/
theorem generateShape_unknown_fallback (P : ShapeProviders)
    (rnd : ℕ → ℕ → Q3) (hG : goodHeartStream rnd) (st : Buffers)
    (ty : String) (h : ty ∉ allowedShapes) :
    generateShape P rnd hG st ty = generateShape P rnd hG st "heart" ∧
    (generateShape P rnd hG st ty).currentShape = "heart" := by
  have h1 : normShape ty = "heart" := if_neg h
  have h2 : normShape "heart" = "heart" := by decide
  constructor
  · rw [generateShape, generateShape, h1, h2]
  · rw [generateShape, h1, if_pos rfl]

/-- Witness for C6 at the concrete unknown id `"blob"`. -/
theorem generateShape_unknown_fallback_witness :
    "blob" ∉ allowedShapes ∧
      generateShape provZero rndHalf rndHalf_good bufTwo "blob" =
        generateShape provZero rndHalf rndHalf_good bufTwo "heart" ∧
      (generateShape provZero rndHalf rndHalf_good bufTwo "blob").currentShape
        = "heart" := by
  have h := generateShape_unknown_fallback provZero rndHalf rndHalf_good
    bufTwo "blob" (by decide)
  exact ⟨by decide, h.1, h.2⟩

/-- A draw stream on which every `Math.random()` call returns 0.99: each
candidate is (1.47, 1.47, 1.47), which the heart inequality rejects. -/
def rndBad : ℕ → Q3 := fun _ => (99/100, 99/100, 99/100)

/-- C10 (counterexample). The heart rejection loop does not terminate for
every draw stream: on `rndBad` no attempt is ever accepted, so
`generateShape('heart')` is not a total function of an arbitrary
underlying random-number stream. -/
theorem heart_loop_diverges_on_rndBad : ¬ heartTerminates rndBad := by
  rintro ⟨n, hn⟩
  have hc : heartCandidate rndBad n = (147/100, 147/100, 147/100) := by
    unfold heartCandidate rndBad
    norm_num
  rw [hc] at hn
  exact absurd hn (by norm_num [heartAccept])

/-- C10 (amended). The heart rejection loop terminates exactly on streams
with an accepted attempt: whenever the stream contains one, the loop
returns its first accepted candidate (and rejects every earlier
attempt). The acceptance region is nonempty — the all-0.5 stream is
accepted at its first attempt — but adversarial streams such as `rndBad`
are rejected forever. -/
theorem heartPick_first_accepted (s : ℕ → Q3) (h : heartTerminates s) :
    heartAccept (heartPick s h) = true ∧
      ∀ m, m < Nat.find h → heartAccept (heartCandidate s m) = false := by
  constructor
  · exact Nat.find_spec h
  · intro m hm
    have hmin := Nat.find_min h hm
    simpa using hmin

/-- Witness for C10's amended theorem on the all-0.5 stream. -/
theorem heartPick_first_accepted_witness :
    heartTerminates (rndHalf 0) ∧
      heartAccept (heartPick (rndHalf 0) (rndHalf_good 0)) = true :=
  ⟨rndHalf_good 0, (heartPick_first_accepted (rndHalf 0) (rndHalf_good 0)).1⟩

/-! ## Gesture classifier (C7)

`HandTracker.updateHandState` (src/database.js lines 171-198). Landmarks
are indexed 0..20 (wrist 0; fingertips 8, 12, 16, 20; knuckles 5, 9, 13,
17); a frame is modelled as a total function from indices to 3D points.
-/

/-- A landmark frame. -/
def Frame := ℕ → ℝ × ℝ × ℝ

/-- Euclidean distance as the source computes it:
`Math.sqrt((a.x-b.x)² + (a.y-b.y)² + (a.z-b.z)²)`. -/
noncomputable def dist3 (p q : ℝ × ℝ × ℝ) : ℝ :=
  Real.sqrt ((p.1 - q.1)^2 + (p.2.1 - q.2.1)^2 + (p.2.2 - q.2.2)^2)

/-- Mean wrist-to-fingertip distance (`avgTipDist`, lines 176-184). -/
noncomputable def avgTipDist (f : Frame) : ℝ :=
  (dist3 (f 8) (f 0) + dist3 (f 12) (f 0) + dist3 (f 16) (f 0) +
    dist3 (f 20) (f 0)) / 4

/-- Mean wrist-to-knuckle distance (`avgMcpDist`, lines 186-195). -/
noncomputable def avgMcpDist (f : Frame) : ℝ :=
  (dist3 (f 5) (f 0) + dist3 (f 9) (f 0) + dist3 (f 13) (f 0) +
    dist3 (f 17) (f 0)) / 4

/-- `this.isClosed = avgTipDist < (avgMcpDist * 1.3)` (line 198). -/
noncomputable def isClosedGesture (f : Frame) : Prop :=
  avgTipDist f < avgMcpDist f * (13/10)

/-- Scaling every landmark coordinate by the constant factor `c`. -/
def scaleFrame (c : ℝ) (f : Frame) : Frame :=
  fun i => (c * (f i).1, c * (f i).2.1, c * (f i).2.2)

theorem dist3_scale (c : ℝ) (p q : ℝ × ℝ × ℝ) :
    dist3 (c * p.1, c * p.2.1, c * p.2.2) (c * q.1, c * q.2.1, c * q.2.2) =
      |c| * dist3 p q := by
  unfold dist3
  have h : (c * p.1 - c * q.1)^2 + (c * p.2.1 - c * q.2.1)^2 +
      (c * p.2.2 - c * q.2.2)^2 =
      c^2 * ((p.1 - q.1)^2 + (p.2.1 - q.2.1)^2 + (p.2.2 - q.2.2)^2) := by
    ring
  rw [h, Real.sqrt_mul (sq_nonneg c), Real.sqrt_sq_eq_abs]

theorem avgTipDist_scale (c : ℝ) (f : Frame) :
    avgTipDist (scaleFrame c f) = |c| * avgTipDist f := by
  unfold avgTipDist scaleFrame
  rw [dist3_scale, dist3_scale, dist3_scale, dist3_scale]
  ring

theorem avgMcpDist_scale (c : ℝ) (f : Frame) :
    avgMcpDist (scaleFrame c f) = |c| * avgMcpDist f := by
  unfold avgMcpDist scaleFrame
  rw [dist3_scale, dist3_scale, dist3_scale, dist3_scale]
  ring

/-- C7 (amended). The ratio-based classifier is scale-invariant for every
nonzero constant factor: the scaled frame is classified Closed exactly
when the original is. (The factor 0 is excluded: see the
counterexample.) -/
theorem isClosedGesture_scale_inv (c : ℝ) (f : Frame) (hc : c ≠ 0) :
    (isClosedGesture (scaleFrame c f) ↔ isClosedGesture f) := by
  have habs : 0 < |c| := abs_pos.mpr hc
  unfold isClosedGesture
  rw [avgTipDist_scale, avgMcpDist_scale]
  constructor
  · intro h
    nlinarith
  · intro h
    nlinarith

/-- A closed-fist frame: wrist at the origin, every other landmark at
(1,0,0); fingertips coincide with knuckles, so it is classified Closed
(1 < 1.3). -/
noncomputable def frameFist : Frame :=
  fun i => if i = 0 then (0, 0, 0) else (1, 0, 0)

theorem avgTipDist_frameFist : avgTipDist frameFist = 1 := by
  unfold avgTipDist frameFist dist3
  norm_num

theorem avgMcpDist_frameFist : avgMcpDist frameFist = 1 := by
  unfold avgMcpDist frameFist dist3
  norm_num

/-- C7 (counterexample). The claim quantifies over every constant scaling
factor; the factor 0 collapses all landmarks to the origin, turning a
Closed frame into an Open one (0 < 0·1.3 is false). -/
theorem isClosedGesture_scale_zero_flips :
    isClosedGesture frameFist ∧ ¬ isClosedGesture (scaleFrame 0 frameFist) := by
  constructor
  · unfold isClosedGesture
    rw [avgTipDist_frameFist, avgMcpDist_frameFist]
    norm_num
  · unfold isClosedGesture
    rw [avgTipDist_scale, avgMcpDist_scale]
    rw [avgTipDist_frameFist, avgMcpDist_frameFist]
    norm_num

/-- Witness for C7's amended theorem at the concrete factor 2. -/
theorem isClosedGesture_scale_inv_witness :
    (2 : ℝ) ≠ 0 ∧
      (isClosedGesture (scaleFrame 2 frameFist) ↔ isClosedGesture frameFist) :=
  ⟨by norm_num, isClosedGesture_scale_inv 2 frameFist (by norm_num)⟩

/-! ## Orientation pipeline (C8)

The orientation part of `HandTracker.updateHandState`
(src/database.js lines 221-282) and the rotation smoothing of
`ParticleSystem.update` (src/particleSystem.js lines 2076-2113).
The three.js quaternion/matrix routines the source calls
(`Vector3.normalize`, `Matrix4.makeBasis`,
`Quaternion.setFromRotationMatrix`, `Euler.setFromQuaternion`,
`Quaternion.setFromEuler`, `Quaternion.slerp`) are embedded from the
library's standard implementations. A JavaScript `NaN` from normalising a
zero vector is represented by its exact-arithmetic cause: the vector
being zero; the code's `isNaN` guards become zero tests placed before the
normalisation they protect.
-/

/-- 3D vector over ℝ. -/
abbrev V3 := ℝ × ℝ × ℝ

def vsub (a b : V3) : V3 := (a.1 - b.1, a.2.1 - b.2.1, a.2.2 - b.2.2)

def vcross (a b : V3) : V3 :=
  (a.2.1 * b.2.2 - a.2.2 * b.2.1,
   a.2.2 * b.1 - a.1 * b.2.2,
   a.1 * b.2.1 - a.2.1 * b.1)

/-- The screen-handedness flips the tracker applies
(`v.y = -v.y; v.x = -v.x`). -/
def vflipXY (a : V3) : V3 := (-a.1, -a.2.1, a.2.2)

noncomputable def vnorm (a : V3) : ℝ :=
  Real.sqrt (a.1 ^ 2 + a.2.1 ^ 2 + a.2.2 ^ 2)

/-- `THREE.Vector3.normalize` on a nonzero vector (on the zero vector the
JavaScript original divides by zero and produces `NaN`; every use below
is guarded by a zero test, as the source guards it with `isNaN`). -/
noncomputable def vnormalize (a : V3) : V3 :=
  (a.1 / vnorm a, a.2.1 / vnorm a, a.2.2 / vnorm a)

/-- A quaternion, with three.js field order (x, y, z, w). -/
structure Quat where
  x : ℝ
  y : ℝ
  z : ℝ
  w : ℝ

def qnormSq (q : Quat) : ℝ := q.x ^ 2 + q.y ^ 2 + q.z ^ 2 + q.w ^ 2

def qdot (a b : Quat) : ℝ := a.x * b.x + a.y * b.y + a.z * b.z + a.w * b.w

def qneg (q : Quat) : Quat := ⟨-q.x, -q.y, -q.z, -q.w⟩

def qsmul (r : ℝ) (q : Quat) : Quat := ⟨r * q.x, r * q.y, r * q.z, r * q.w⟩

def qadd (a b : Quat) : Quat := ⟨a.x + b.x, a.y + b.y, a.z + b.z, a.w + b.w⟩

/-- `THREE.Quaternion.normalize`: zero length resets to the identity
quaternion, otherwise divide by the length. -/
noncomputable def qnormalize (q : Quat) : Quat :=
  if Real.sqrt (qnormSq q) = 0 then ⟨0, 0, 0, 1⟩
  else qsmul (1 / Real.sqrt (qnormSq q)) q

/-- A 3×3 rotation-matrix block (row i, column j). -/
structure M3 where
  m11 : ℝ
  m12 : ℝ
  m13 : ℝ
  m21 : ℝ
  m22 : ℝ
  m23 : ℝ
  m31 : ℝ
  m32 : ℝ
  m33 : ℝ

/-- `THREE.Matrix4.makeBasis(x, y, z)`: the three vectors become the
columns. -/
def makeBasis (xA yA zA : V3) : M3 :=
  ⟨xA.1, yA.1, zA.1, xA.2.1, yA.2.1, zA.2.1, xA.2.2, yA.2.2, zA.2.2⟩

/-- `THREE.Quaternion.setFromRotationMatrix` (Shepperd's method). -/
noncomputable def setFromRotationMatrix (m : M3) : Quat :=
  if 0 < m.m11 + m.m22 + m.m33 then
    let s := (1/2) / Real.sqrt (m.m11 + m.m22 + m.m33 + 1)
    ⟨(m.m32 - m.m23) * s, (m.m13 - m.m31) * s, (m.m21 - m.m12) * s,
      (1/4) / s⟩
  else if m.m22 < m.m11 ∧ m.m33 < m.m11 then
    let s := 2 * Real.sqrt (1 + m.m11 - m.m22 - m.m33)
    ⟨(1/4) * s, (m.m12 + m.m21) / s, (m.m13 + m.m31) / s,
      (m.m32 - m.m23) / s⟩
  else if m.m33 < m.m22 then
    let s := 2 * Real.sqrt (1 + m.m22 - m.m11 - m.m33)
    ⟨(m.m12 + m.m21) / s, (1/4) * s, (m.m23 + m.m32) / s,
      (m.m13 - m.m31) / s⟩
  else
    let s := 2 * Real.sqrt (1 + m.m33 - m.m11 - m.m22)
    ⟨(m.m13 + m.m31) / s, (m.m23 + m.m32) / s, (1/4) * s,
      (m.m21 - m.m12) / s⟩

/-- The palm-normal cross product of the tracker (lines 249-259):
`cross(flip(index − wrist), flip(pinky − wrist))`. -/
def trackerZRaw (lm : ℕ → V3) : V3 :=
  vcross (vflipXY (vsub (lm 5) (lm 0))) (vflipXY (vsub (lm 17) (lm 0)))

/-- The finger-direction vector of the tracker (lines 266-270):
`flip(middle − wrist)`. -/
def trackerYRaw (lm : ℕ → V3) : V3 :=
  vflipXY (vsub (lm 9) (lm 0))

/-- The orientation-basis computation of `updateHandState`
(lines 221-281). `none` models the three `isNaN` early returns: a
normalised axis is `NaN` exactly when the vector being normalised is
zero. The vectors computed on lines 227-233 (`yAxis`, `vPalmAcross`) are
never used afterwards and are omitted. -/
noncomputable def trackerBasis (lm : ℕ → V3) : Option (V3 × V3 × V3) :=
  if trackerZRaw lm = (0, 0, 0) then none
  else
    let zAxis := vnormalize (trackerZRaw lm)
    if trackerYRaw lm = (0, 0, 0) then none
    else
      let yAxisFinal := vnormalize (trackerYRaw lm)
      if vcross yAxisFinal zAxis = (0, 0, 0) then none
      else some (vnormalize (vcross yAxisFinal zAxis), yAxisFinal, zAxis)

/-- The whole rotation update of one tracker frame: on a degenerate
basis the previous rotation is retained, otherwise
`this.rotation.setFromRotationMatrix(makeBasis(x, y, z))`. -/
noncomputable def trackerRotStep (lm : ℕ → V3) (prev : Quat) : Quat :=
  match trackerBasis lm with
  | none => prev
  | some b => setFromRotationMatrix (makeBasis b.1 b.2.1 b.2.2)

/-- `THREE.Matrix4.makeRotationFromQuaternion` (the 3×3 block). -/
def quatToM3 (q : Quat) : M3 :=
  ⟨1 - (q.y * (q.y + q.y) + q.z * (q.z + q.z)),
   q.x * (q.y + q.y) - q.w * (q.z + q.z),
   q.x * (q.z + q.z) + q.w * (q.y + q.y),
   q.x * (q.y + q.y) + q.w * (q.z + q.z),
   1 - (q.x * (q.x + q.x) + q.z * (q.z + q.z)),
   q.y * (q.z + q.z) - q.w * (q.x + q.x),
   q.x * (q.z + q.z) - q.w * (q.y + q.y),
   q.y * (q.z + q.z) + q.w * (q.x + q.x),
   1 - (q.x * (q.x + q.x) + q.y * (q.y + q.y))⟩

/-- `Math.atan2`. -/
noncomputable def atan2 (y x : ℝ) : ℝ :=
  if 0 < x then Real.arctan (y / x)
  else if x < 0 then
    (if 0 ≤ y then Real.arctan (y / x) + Real.pi
     else Real.arctan (y / x) - Real.pi)
  else
    (if 0 < y then Real.pi / 2 else if y < 0 then -(Real.pi / 2) else 0)

/-- `THREE.MathUtils.clamp(v, lo, hi) = max(lo, min(hi, v))`. -/
def rclamp (v lo hi : ℝ) : ℝ := max lo (min hi v)

/-- `THREE.Euler.setFromQuaternion(q, 'YXZ')` (via
`makeRotationFromQuaternion` and `Euler.setFromRotationMatrix`). Only the
well-definedness of the angles matters below, not their values. -/
noncomputable def eulerYXZOfQuat (q : Quat) : ℝ × ℝ × ℝ :=
  let m := quatToM3 q
  let ex := Real.arcsin (-(rclamp m.m23 (-1) 1))
  if |m.m23| < 9999999/10000000 then
    (ex, atan2 m.m13 m.m33, atan2 m.m21 m.m22)
  else
    (ex, atan2 (-m.m31) m.m11, 0)

/-- `THREE.Quaternion.setFromEuler` for order `'YXZ'`. -/
noncomputable def quatFromEulerYXZ (e : ℝ × ℝ × ℝ) : Quat :=
  ⟨Real.sin (e.1 / 2) * Real.cos (e.2.1 / 2) * Real.cos (e.2.2 / 2) +
     Real.cos (e.1 / 2) * Real.sin (e.2.1 / 2) * Real.sin (e.2.2 / 2),
   Real.cos (e.1 / 2) * Real.sin (e.2.1 / 2) * Real.cos (e.2.2 / 2) -
     Real.sin (e.1 / 2) * Real.cos (e.2.1 / 2) * Real.sin (e.2.2 / 2),
   Real.cos (e.1 / 2) * Real.cos (e.2.1 / 2) * Real.sin (e.2.2 / 2) -
     Real.sin (e.1 / 2) * Real.sin (e.2.1 / 2) * Real.cos (e.2.2 / 2),
   Real.cos (e.1 / 2) * Real.cos (e.2.1 / 2) * Real.cos (e.2.2 / 2) +
     Real.sin (e.1 / 2) * Real.sin (e.2.1 / 2) * Real.sin (e.2.2 / 2)⟩

/-- `THREE.Quaternion.slerp(qb, t)` applied to `qa`. -/
noncomputable def qslerp (qa qb : Quat) (t : ℝ) : Quat :=
  if t = 0 then qa
  else if t = 1 then qb
  else
    let c0 := qdot qa qb
    let q2 := if c0 < 0 then qneg qb else qb
    let c := if c0 < 0 then -c0 else c0
    if 1 ≤ c then qa
    else if 1 - c * c ≤ 1 / 2 ^ 52 then
      qnormalize (qadd (qsmul (1 - t) qa) (qsmul t q2))
    else
      qadd
        (qsmul (Real.sin ((1 - t) * atan2 (Real.sqrt (1 - c * c)) c) /
          Real.sqrt (1 - c * c)) qa)
        (qsmul (Real.sin (t * atan2 (Real.sqrt (1 - c * c)) c) /
          Real.sqrt (1 - c * c)) q2)

/-- The position-derived pitch override (lines 2084-2091):
`-clamp(y/15, -1, 1) * (π/2.5)`. -/
noncomputable def tiltAngle (ySmoothed : ℝ) : ℝ :=
  -(rclamp (ySmoothed / 15) (-1) 1) * (Real.pi / (5/2))

/-- One rotation-smoothing tick of `ParticleSystem.update`
(lines 2076-2112): extract `'YXZ'` Euler angles from the raw tracker
rotation, replace the pitch by the height-derived tilt, rebuild the
quaternion, and slerp the smoothed rotation toward it with the
gesture-dependent factor (0.03 Closed, 0.15 Open). The unused `tiltQuat`
construction (lines 2093-2094) is dead code and omitted. -/
noncomputable def psRotStep (rawRot : Quat) (ySmoothed : ℝ) (closed : Bool)
    (smoothed : Quat) : Quat :=
  qslerp smoothed
    (quatFromEulerYXZ
      (tiltAngle ySmoothed, (eulerYXZOfQuat rawRot).2.1,
        (eulerYXZOfQuat rawRot).2.2))
    (if closed then 3/100 else 15/100)

/-- A run of the rotation smoothing over a sequence of ticks: `none` is a
tick without a hand (the whole block is skipped); `some (q, y, closed)`
is a tick with raw rotation `q`, smoothed hand height `y` and gesture
`closed`. -/
noncomputable def psRotRun : List (Option (Quat × ℝ × Bool)) → Quat → Quat
  | [], q => q
  | none :: is, q => psRotRun is q
  | some i :: is, q => psRotRun is (psRotStep i.1 i.2.1 i.2.2 q)

theorem qnormSq_nonneg (q : Quat) : 0 ≤ qnormSq q := by
  unfold qnormSq
  positivity

theorem qnormalize_unit (q : Quat) : qnormSq (qnormalize q) = 1 := by
  unfold qnormalize
  split
  · simp [qnormSq]
  · rename_i h
    have hS : 0 < qnormSq q := by
      rcases lt_or_eq_of_le (qnormSq_nonneg q) with h1 | h1
      · exact h1
      · exact absurd (by rw [← h1]; exact Real.sqrt_zero) h
    have hsq : Real.sqrt (qnormSq q) ^ 2 = qnormSq q := Real.sq_sqrt hS.le
    show qnormSq (qsmul (1 / Real.sqrt (qnormSq q)) q) = 1
    have hexp : qnormSq (qsmul (1 / Real.sqrt (qnormSq q)) q) =
        (1 / Real.sqrt (qnormSq q)) ^ 2 * qnormSq q := by
      unfold qnormSq qsmul
      ring
    rw [hexp, div_pow, one_pow, hsq, one_div, inv_mul_cancel₀ hS.ne']

theorem quatFromEulerYXZ_unit (e : ℝ × ℝ × ℝ) :
    qnormSq (quatFromEulerYXZ e) = 1 := by
  have h1 := Real.sin_sq_add_cos_sq (e.1 / 2)
  have h2 := Real.sin_sq_add_cos_sq (e.2.1 / 2)
  have h3 := Real.sin_sq_add_cos_sq (e.2.2 / 2)
  unfold quatFromEulerYXZ qnormSq
  linear_combination
    ((Real.sin (e.2.1 / 2)) ^ 2 + (Real.cos (e.2.1 / 2)) ^ 2) *
        ((Real.sin (e.2.2 / 2)) ^ 2 + (Real.cos (e.2.2 / 2)) ^ 2) * h1 +
      ((Real.sin (e.2.2 / 2)) ^ 2 + (Real.cos (e.2.2 / 2)) ^ 2) * h2 + h3

theorem sin_cos_atan2_unit (s c : ℝ) (hs : 0 < s) (hc : 0 ≤ c)
    (h1 : s ^ 2 + c ^ 2 = 1) :
    Real.sin (atan2 s c) = s ∧ Real.cos (atan2 s c) = c := by
  rcases eq_or_lt_of_le hc with hc0 | hcpos
  · have hs1 : s = 1 := by nlinarith
    unfold atan2
    rw [if_neg (by rw [← hc0]; exact lt_irrefl 0),
      if_neg (by rw [← hc0]; exact lt_irrefl 0), if_pos hs]
    rw [Real.sin_pi_div_two, Real.cos_pi_div_two, hs1, hc0]
    exact ⟨rfl, rfl⟩
  · unfold atan2
    rw [if_pos hcpos]
    have hc2 : (1 : ℝ) + (s / c) ^ 2 = 1 / c ^ 2 := by
      field_simp
      linarith
    have hc3 : Real.sqrt (1 + (s / c) ^ 2) = 1 / c := by
      have hinv : (1 : ℝ) / c ^ 2 = (1 / c) ^ 2 := by
        rw [div_pow, one_pow]
      rw [hc2, hinv, Real.sqrt_sq (by positivity)]
    rw [Real.sin_arctan, Real.cos_arctan, hc3]
    constructor
    · field_simp
    · field_simp

theorem qslerp_core_unit (qa q2 : Quat) (t c : ℝ) (ha : qnormSq qa = 1)
    (h2 : qnormSq q2 = 1) (hdot : qdot qa q2 = c) (hc : 0 ≤ c) :
    qnormSq
      (if 1 ≤ c then qa
       else if 1 - c * c ≤ 1 / 2 ^ 52 then
         qnormalize (qadd (qsmul (1 - t) qa) (qsmul t q2))
       else
         qadd
           (qsmul (Real.sin ((1 - t) * atan2 (Real.sqrt (1 - c * c)) c) /
             Real.sqrt (1 - c * c)) qa)
           (qsmul (Real.sin (t * atan2 (Real.sqrt (1 - c * c)) c) /
             Real.sqrt (1 - c * c)) q2)) = 1 := by
  by_cases hc1 : 1 ≤ c
  · rw [if_pos hc1]
    exact ha
  rw [if_neg hc1]
  by_cases heps : 1 - c * c ≤ 1 / 2 ^ 52
  · rw [if_pos heps]
    exact qnormalize_unit _
  rw [if_neg heps]
  have hs2pos : 0 < 1 - c * c :=
    lt_trans (by positivity) (lt_of_not_le heps)
  set s := Real.sqrt (1 - c * c) with hsdef
  have hspos : 0 < s := Real.sqrt_pos.mpr hs2pos
  have hs2 : s ^ 2 = 1 - c * c := Real.sq_sqrt hs2pos.le
  have hunit : s ^ 2 + c ^ 2 = 1 := by linear_combination hs2
  obtain ⟨hsin, hcos⟩ :=
    sin_cos_atan2_unit s c hspos hc hunit
  set θ := atan2 s c with hθdef
  have hexpand :
      qnormSq (qadd (qsmul (Real.sin ((1 - t) * θ) / s) qa)
        (qsmul (Real.sin (t * θ) / s) q2)) =
      (Real.sin ((1 - t) * θ) / s) ^ 2 * qnormSq qa +
        2 * (Real.sin ((1 - t) * θ) / s) * (Real.sin (t * θ) / s) *
          qdot qa q2 +
        (Real.sin (t * θ) / s) ^ 2 * qnormSq q2 := by
    unfold qnormSq qadd qsmul qdot
    ring
  rw [hexpand, ha, h2, hdot]
  have harg : (1 - t) * θ = θ - t * θ := by ring
  rw [harg, Real.sin_sub, hsin, hcos]
  have hP := Real.sin_sq_add_cos_sq (t * θ)
  field_simp
  linear_combination s ^ 6 * hP - s ^ 4 * (Real.sin (t * θ)) ^ 2 * hunit

theorem qnormSq_qneg (q : Quat) : qnormSq (qneg q) = qnormSq q := by
  unfold qnormSq qneg
  ring

theorem qdot_qneg (a b : Quat) : qdot a (qneg b) = -(qdot a b) := by
  unfold qdot qneg
  ring

/-- `THREE.Quaternion.slerp` preserves unit norm (in exact arithmetic). -/
theorem qslerp_unit (qa qb : Quat) (t : ℝ) (ha : qnormSq qa = 1)
    (hb : qnormSq qb = 1) : qnormSq (qslerp qa qb t) = 1 := by
  by_cases ht0 : t = 0
  · simp only [qslerp, if_pos ht0]
    exact ha
  by_cases ht1 : t = 1
  · simp only [qslerp, if_neg ht0, if_pos ht1]
    exact hb
  simp only [qslerp, if_neg ht0, if_neg ht1]
  by_cases hneg : qdot qa qb < 0
  · simp only [if_pos hneg]
    exact qslerp_core_unit qa (qneg qb) t (-(qdot qa qb)) ha
      (by rw [qnormSq_qneg]; exact hb) (qdot_qneg qa qb)
      (by linarith)
  · simp only [if_neg hneg]
    exact qslerp_core_unit qa qb t (qdot qa qb) ha hb rfl
      (by linarith [not_lt.mp hneg])

theorem trackerBasis_none_iff (lm : ℕ → V3) :
    trackerBasis lm = none ↔
      (trackerZRaw lm = (0, 0, 0) ∨ trackerYRaw lm = (0, 0, 0) ∨
        vcross (vnormalize (trackerYRaw lm)) (vnormalize (trackerZRaw lm)) =
          (0, 0, 0)) := by
  unfold trackerBasis
  by_cases h1 : trackerZRaw lm = (0, 0, 0)
  · simp [h1]
  by_cases h2 : trackerYRaw lm = (0, 0, 0)
  · simp [h1, h2]
  by_cases h3 : vcross (vnormalize (trackerYRaw lm))
      (vnormalize (trackerZRaw lm)) = (0, 0, 0)
  · simp [h1, h2, h3]
  · simp [h1, h2, h3,
      show ¬ trackerZRaw lm = 0 from h1,
      show ¬ trackerYRaw lm = 0 from h2,
      show ¬ vcross (vnormalize (trackerYRaw lm))
        (vnormalize (trackerZRaw lm)) = 0 from h3]

theorem psRotStep_unit (raw : Quat) (y : ℝ) (closed : Bool) (smoothed : Quat)
    (h : qnormSq smoothed = 1) :
    qnormSq (psRotStep raw y closed smoothed) = 1 := by
  unfold psRotStep
  exact qslerp_unit _ _ _ h (quatFromEulerYXZ_unit _)

/-- C8. (a) The tracker's orientation-basis computation fails (returns
`none`, the exact-arithmetic counterpart of the `isNaN` guards firing)
exactly when one of the three axis vectors is degenerate — the
palm-normal cross product, the finger direction, or their cross — and in
that case the frame's rotation update is skipped and the previous
rotation retained. (b) Whatever (possibly non-unit) raw rotations the
tracker delivers, the smoothed orientation of the particle system is a
unit quaternion after every sequence of ticks: each tick rebuilds the
slerp target from Euler angles (always unit) and slerp preserves unit
norm, so the smoothed quaternion is never `NaN` and never non-unit. -/
theorem orientation_never_degenerate :
    (∀ lm : ℕ → V3, trackerBasis lm = none ↔
      (trackerZRaw lm = (0, 0, 0) ∨ trackerYRaw lm = (0, 0, 0) ∨
        vcross (vnormalize (trackerYRaw lm)) (vnormalize (trackerZRaw lm)) =
          (0, 0, 0))) ∧
    (∀ (lm : ℕ → V3) (prev : Quat), trackerBasis lm = none →
      trackerRotStep lm prev = prev) ∧
    (∀ (inputs : List (Option (Quat × ℝ × Bool))) (q0 : Quat),
      qnormSq q0 = 1 → qnormSq (psRotRun inputs q0) = 1) := by
  refine ⟨trackerBasis_none_iff, ?_, ?_⟩
  · intro lm prev h
    unfold trackerRotStep
    rw [h]
  · intro inputs
    induction inputs with
    | nil => intro q0 h; exact h
    | cons i is ih =>
        intro q0 h
        cases i with
        | none =>
            show qnormSq (psRotRun is q0) = 1
            exact ih q0 h
        | some p =>
            show qnormSq (psRotRun is (psRotStep p.1 p.2.1 p.2.2 q0)) = 1
            exact ih _ (psRotStep_unit _ _ _ _ h)

/-- A frame of fully coincident landmarks (every landmark at the
origin) — the spec's canonical degenerate input. -/
def lmZero : ℕ → V3 := fun _ => (0, 0, 0)

/-- The identity quaternion (the tracker's and the smoother's initial
rotation). -/
noncomputable def qId : Quat := ⟨0, 0, 0, 1⟩

/-- Witness for C8: the coincident-landmark frame is degenerate and
retains the previous rotation, and a two-tick run fed a non-unit raw
rotation keeps the smoothed orientation unit. -/
theorem orientation_never_degenerate_witness :
    trackerBasis lmZero = none ∧
    trackerRotStep lmZero qId = qId ∧
    qnormSq (psRotRun [some (⟨2, 0, 0, 0⟩, 0, true), none] qId) = 1 := by
  have h := orientation_never_degenerate
  have hz : trackerZRaw lmZero = (0, 0, 0) := by
    unfold trackerZRaw lmZero vsub vflipXY vcross
    norm_num
  have hnone : trackerBasis lmZero = none := (h.1 lmZero).mpr (Or.inl hz)
  refine ⟨hnone, h.2.1 lmZero qId hnone, h.2.2 _ qId ?_⟩
  unfold qnormSq qId
  norm_num
